import Mathlib

/-!
# Verification of the Multi-Model LLM Gateway routing core

Shallow embedding of the gateway's routing, registry, auth and rate-limit
logic, translated from the Python source:

* `app/domain/router.py`         — circuit breaker and router data types
* `app/application/services/model_router.py` — candidate loop of
  `ModelRouterService.chat_completion`
* `app/application/services/memory_registry_service.py` — in-memory registry
* `app/application/services/model_registry_service.py`  — Redis registry
* `app/application/llm/openai_adapter.py` — retry loop of `acompletion`
* `app/api/middleware/auth.py`   — API-key cache gate and rate limiting
* `app/infrastructure/memory_client.py` — `InMemoryRedis`

Machine integers of the source are modelled as `Int`/`Nat`, Unix timestamps
as `Int` seconds, Python dicts as association lists in iteration order, and
effects (HTTP responses, KV writes) as explicit outcome parameters.
-/

namespace LLMGateway

/-! ## Circuit breaker (`app/domain/router.py`) -/

/-- `CircuitState` enum: closed / open / half_open. -/
inductive CircuitState where
  | closed
  | opened
  | halfOpen
deriving DecidableEq, Repr

/-- `CircuitBreaker` dataclass.  `opened_at_ts` (a float Unix time in the
source) is modelled as an `Int` timestamp. -/
structure CircuitBreaker where
  provider : String
  failure_threshold : Nat := 5
  reset_timeout_s : Int := 60
  state : CircuitState := .closed
  failure_count : Nat := 0
  opened_at_ts : Option Int := none
deriving DecidableEq, Repr

namespace CircuitBreaker

/-- `CircuitBreaker.on_success`: resets state, count and opened timestamp,
but only when the current state is not `closed`. -/
def on_success (cb : CircuitBreaker) : CircuitBreaker :=
  if cb.state ≠ .closed then
    { cb with state := .closed, failure_count := 0, opened_at_ts := none }
  else
    cb

/-- `CircuitBreaker.on_failure`: increments the failure count and opens the
breaker (recording the current time) once the threshold is reached. -/
def on_failure (cb : CircuitBreaker) (now : Int) : CircuitBreaker :=
  let cb := { cb with failure_count := cb.failure_count + 1 }
  if cb.failure_count ≥ cb.failure_threshold then
    { cb with state := .opened, opened_at_ts := some now }
  else
    cb

/-- `CircuitBreaker.allow_request`.  The source asserts `opened_at_ts is not
None` in the open state; `none` models that assertion failing.  Returns the
possibly-updated breaker (open → half_open on timeout) and the decision. -/
def allow_request (cb : CircuitBreaker) (now : Int) :
    Option (CircuitBreaker × Bool) :=
  match cb.state with
  | .closed => some (cb, true)
  | .opened =>
    match cb.opened_at_ts with
    | none => none
    | some t =>
      if now - t ≥ cb.reset_timeout_s then
        some ({ cb with state := .halfOpen }, true)
      else
        some (cb, false)
  | .halfOpen => some (cb, true)

end CircuitBreaker

/-- A fresh breaker as created by `ModelRouterService._get_circuit_breaker`:
`CircuitBreaker(provider=provider)` with all defaults. -/
def freshBreaker (provider : String) : CircuitBreaker :=
  { provider := provider }

end LLMGateway

namespace LLMGateway

/-! ## Model catalogue (`app/domain/models.py`) -/

/-- `ModelCapability` enum. -/
inductive ModelCapability where
  | streaming
  | tools
  | vision
  | json_mode
  | long_context
deriving DecidableEq, Repr

/-- `ModelConfig` domain entity.  Python floats (the two cost fields) are
modelled as rationals and the optional datetimes as optional `Int`
timestamps. -/
structure ModelConfig where
  id : String
  provider : String
  model_name : String
  display_name : String
  context_window : Nat
  max_output_tokens : Nat
  capabilities : List ModelCapability := []
  cost_per_1k_input : Rat := 0
  cost_per_1k_output : Rat := 0
  is_active : Bool := true
  priority : Int := 0
  created_at : Option Int := none
  updated_at : Option Int := none
deriving DecidableEq, Repr

/-- Canonical `provider:model_name` identifier, as built by
`f"{m.provider}:{m.model_name}"` in the source. -/
def fullName (m : ModelConfig) : String :=
  m.provider ++ ":" ++ m.model_name

/-! ### Python's stable `sorted` on the `priority` key

`sorted(xs, key=lambda m: m.priority, reverse=True)` and
`sorted(xs, key=lambda m: m.priority)` are stable sorts; they are modelled
by stable insertion sorts (each element is inserted before the elements
that compare strictly after it, so equal keys keep their original order). -/

/-- Insert `a` before the first element whose priority is not strictly
greater (descending order, `a` goes before equal keys). -/
def insertByDesc (a : ModelConfig) : List ModelConfig → List ModelConfig
  | [] => [a]
  | b :: l => if a.priority < b.priority then b :: insertByDesc a l else a :: b :: l

/-- Stable sort by `priority` descending: Python's
`sorted(xs, key=..., reverse=True)`. -/
def sortByPriorityDesc : List ModelConfig → List ModelConfig
  | [] => []
  | a :: l => insertByDesc a (sortByPriorityDesc l)

/-- Insert `a` before the first element whose priority is not strictly
smaller (ascending order, `a` goes before equal keys). -/
def insertByAsc (a : ModelConfig) : List ModelConfig → List ModelConfig
  | [] => [a]
  | b :: l => if b.priority < a.priority then b :: insertByAsc a l else a :: b :: l

/-- Stable sort by `priority` ascending: Python's `sorted(xs, key=...)`. -/
def sortByPriorityAsc : List ModelConfig → List ModelConfig
  | [] => []
  | a :: l => insertByAsc a (sortByPriorityAsc l)

/-! ## In-memory registry
(`app/application/services/memory_registry_service.py`) -/

/-- State of `InMemoryModelRegistry`: the `self._models` dict as an
association list in insertion order (Python dicts preserve it). -/
structure InMemoryModelRegistry where
  models : List (String × ModelConfig)
deriving Repr

namespace InMemoryModelRegistry

/-- `InMemoryModelRegistry.get_model`: plain dict lookup. -/
def get_model (st : InMemoryModelRegistry) (identifier : String) :
    Option ModelConfig :=
  (st.models.find? (fun e => e.1 == identifier)).map (·.2)

/-- `list(self._models.values())` in dict iteration order. -/
def values (st : InMemoryModelRegistry) : List ModelConfig :=
  st.models.map (·.2)

/-- The filter pipeline of `InMemoryModelRegistry.list_models` before the
final sort.  Python truthiness: a `None` or empty-string provider applies
no filter; `capability=None` applies none. -/
def filtered (st : InMemoryModelRegistry) (provider : Option String)
    (capability : Option ModelCapability) (active_only : Bool) :
    List ModelConfig :=
  let results := st.values
  let results := if active_only then results.filter (·.is_active) else results
  let results :=
    match provider with
    | some p => if p = "" then results else results.filter (·.provider == p)
    | none => results
  match capability with
  | some c => results.filter (fun m => m.capabilities.contains c)
  | none => results

/-- `InMemoryModelRegistry.list_models`: the filtered snapshot sorted by
priority **descending** (`sorted(results, key=lambda x: x.priority,
reverse=True)`). -/
def list_models (st : InMemoryModelRegistry) (provider : Option String)
    (capability : Option ModelCapability) (active_only : Bool) :
    List ModelConfig :=
  sortByPriorityDesc (st.filtered provider capability active_only)

/-- `InMemoryModelRegistry.get_fallback_chain`: resolve the failed model,
then keep active models of the same provider with a different name. -/
def get_fallback_chain (st : InMemoryModelRegistry) (failed_model : String) :
    List ModelConfig :=
  match st.get_model failed_model with
  | none => []
  | some base =>
    (st.list_models none none true).filter
      (fun m => m.provider == base.provider && m.model_name != base.model_name)

end InMemoryModelRegistry

/-! ## Redis-backed registry
(`app/application/services/model_registry_service.py`) -/

/-- Snapshot of `RedisModelRegistry`'s KV state.  `active` is the
`lkg:models:active` hash in `hgetall` iteration order with values already
unpacked (msgpack round-tripping is not at issue here), `aliases` the
`lkg:models:aliases` hash, and `capIndex c` the `smembers` iteration order
of `lkg:models:capability:{c}`. -/
structure RedisModelRegistry where
  active : List (String × ModelConfig)
  aliases : List (String × String)
  capIndex : ModelCapability → List String

namespace RedisModelRegistry

/-- `RedisModelRegistry.get_model`: resolve a bare name through the alias
hash, then look the key up in the active hash. -/
def get_model (st : RedisModelRegistry) (identifier : String) :
    Option ModelConfig :=
  let model_key :=
    if ¬ identifier.data.contains ':' then
      match st.aliases.find? (fun e => e.1 == identifier) with
      | some e => e.2
      | none => identifier
    else identifier
  (st.active.find? (fun e => e.1 == model_key)).map (·.2)

/-- The filter pipeline of `RedisModelRegistry.list_models` before the
final sort.  With a capability filter the keys come from the capability
set and are fetched via `hmget` (missing keys are skipped); otherwise all
hash values are taken.  The provider filter skips non-matching entries;
`active_only` is never consulted. -/
def filtered (st : RedisModelRegistry) (provider : Option String)
    (capability : Option ModelCapability) : List ModelConfig :=
  let raw_list : List (Option ModelConfig) :=
    match capability with
    | some c =>
      (st.capIndex c).map
        (fun k => (st.active.find? (fun e => e.1 == k)).map (·.2))
    | none => st.active.map (fun e => some e.2)
  (raw_list.filterMap id).filter
    (fun m =>
      match provider with
      | some p => p == "" || m.provider == p
      | none => true)

/-- `RedisModelRegistry.list_models` proper: the filtered entries sorted by
priority ascending. -/
def list_models (st : RedisModelRegistry) (provider : Option String)
    (capability : Option ModelCapability) (active_only : Bool) :
    List ModelConfig :=
  sortByPriorityAsc (st.filtered provider capability)

/-- `RedisModelRegistry.get_fallback_chain`: all listed models except the
one whose canonical `provider:model_name` equals the failed identifier —
no provider filter. -/
def get_fallback_chain (st : RedisModelRegistry) (failed_model : String) :
    List ModelConfig :=
  (st.list_models none none true).filter (fun m => fullName m != failed_model)

end RedisModelRegistry

/-! ## Router candidate chain
(`ModelRouterService.chat_completion`, lines 105–112) -/

/-- `RouterFallbackConfig` dataclass. -/
structure RouterFallbackConfig where
  enabled : Bool
  models : List String := []
deriving DecidableEq, Repr

/-- Candidate-chain construction from `chat_completion`: start from the
primary config; when fallback is enabled, extend with the registry's
fallback chain, restricted to the requested model names only when
`fallback.models` is non-empty (`if fallback.models:` — an empty list is
falsy and applies **no** filter). -/
def buildModelsChain (cfg : ModelConfig) (fallbacks : List ModelConfig)
    (fallback : RouterFallbackConfig) : List ModelConfig :=
  if fallback.enabled then
    cfg ::
      (if fallback.models.isEmpty then fallbacks
       else fallbacks.filter (fun m => fallback.models.contains m.model_name))
  else [cfg]

/-! ## Router candidate loop (`ModelRouterService.chat_completion`,
lines 114–210 of `model_router.py`)

The loop's effects are made explicit: each candidate carries the outcome
its adapter call would have (`AdapterOutcome`) and whether the subsequent
response-cache write would succeed; the circuit-breaker dict is threaded
as an association list. -/

/-- `LLMUsage` dataclass. -/
structure LLMUsage where
  prompt_tokens : Nat
  completion_tokens : Nat
deriving DecidableEq, Repr

/-- `LLMCompletionResult` (the `raw_response` mapping is not modelled). -/
structure LLMCompletionResult where
  provider : String
  model : String
  content : String
  usage : LLMUsage
  finish_reason : Option String
deriving DecidableEq, Repr

/-- `ProviderError`'s data: provider, model, the `retryable`/`fallback`
hints, message and optional upstream status code. -/
structure ProviderErrorData where
  provider : String
  model : String
  retryable : Bool
  fallback : Bool
  message : String
  status_code : Option Nat := none
deriving DecidableEq, Repr

/-- `RouterDecision` dataclass. -/
structure RouterDecision where
  provider : String
  provider_model : String
  logical_model : String
  from_cache : Bool
  fallback_chain : List String
deriving DecidableEq, Repr

/-- Outcome of one candidate's `adapter.acompletion(...)` call:
a result, a raised `ProviderError`, or any other exception. -/
inductive AdapterOutcome where
  | ok (result : LLMCompletionResult)
  | providerError (e : ProviderErrorData)
  | otherError
deriving DecidableEq, Repr

/-- What ended up in `last_error` (a `ProviderError`, the exception of a
failed cache write, or another exception). -/
inductive RouteErrorKind where
  | provider (e : ProviderErrorData)
  | cacheWrite
  | generic
deriving DecidableEq, Repr

/-- Final outcome of the candidate loop.  `assertionFailure` models the
`assert self.opened_at_ts is not None` in `allow_request` failing;
`allFailed` models the final `raise RuntimeError("All provider candidates
failed") from last_error`. -/
inductive RouteFinal where
  | success (d : RouterDecision) (r : LLMCompletionResult)
  | streamingStart (d : RouterDecision)
  | allFailed (lastError : Option RouteErrorKind)
  | assertionFailure
deriving DecidableEq, Repr

/-- One candidate of `models_chain` together with the environment's
behaviour for it. -/
structure Candidate where
  cfg : ModelConfig
  outcome : AdapterOutcome
  cacheWriteOk : Bool
deriving Repr

/-- Mutable state threaded through the loop: the service's
`_circuit_breakers` dict (insertion-ordered association list),
`tried_models`, the list of models whose adapter was actually invoked, and
`last_error`. -/
structure RouteState where
  breakers : List (String × CircuitBreaker)
  tried : List String
  invoked : List String
  lastError : Option RouteErrorKind
deriving Repr

/-- `ModelRouterService._get_circuit_breaker`: look the provider up,
defaulting to a fresh `CircuitBreaker(provider=provider)`. -/
def getCB (bs : List (String × CircuitBreaker)) (p : String) :
    CircuitBreaker :=
  match bs.find? (fun e => e.1 == p) with
  | some e => e.2
  | none => freshBreaker p

/-- Dict update: replace the provider's breaker (or insert it). -/
def setCB : List (String × CircuitBreaker) → String → CircuitBreaker →
    List (String × CircuitBreaker)
  | [], p, cb => [(p, cb)]
  | e :: bs, p, cb =>
    if e.1 == p then (p, cb) :: bs else e :: setCB bs p cb

/-- The `RouterDecision` built on the success and streaming paths
(`from_cache=False`, `fallback_chain = models_chain[1:]`). -/
def mkDecision (provider provider_model logical : String)
    (chainTail : List String) : RouterDecision :=
  { provider := provider, provider_model := provider_model,
    logical_model := logical, from_cache := false,
    fallback_chain := chainTail }

/-- The `for model_cfg in models_chain` loop of `chat_completion`.

Per candidate: append to `tried_models`; consult (and possibly update) the
provider's breaker; skip the candidate when the breaker denies.  On the
streaming path return before calling the adapter.  Otherwise the adapter
outcome is handled exactly as the source's `try/except`: success runs
`cb.on_success()` and then the cache write — a failing write is caught by
the generic `except Exception` handler (`last_error = exc;
cb.on_failure()`) and the loop continues; a `ProviderError` runs
`cb.on_failure()` and breaks out of the loop when `exc.fallback` is false;
any other exception runs `cb.on_failure()` and continues. -/
def routeLoop (now : Int) (streaming hasCacheKey : Bool)
    (logicalModel : String) (chainTail : List String) (st : RouteState) :
    List Candidate → RouteFinal × RouteState
  | [] => (.allFailed st.lastError, st)
  | c :: rest =>
    let p := c.cfg.provider
    let st1 := { st with tried := st.tried ++ [c.cfg.model_name] }
    let cb := getCB st1.breakers p
    match cb.allow_request now with
    | none => (.assertionFailure, st1)
    | some (cb1, allowed) =>
      let st2 := { st1 with breakers := setCB st1.breakers p cb1 }
      if ¬ allowed then
        routeLoop now streaming hasCacheKey logicalModel chainTail st2 rest
      else if streaming then
        (.streamingStart (mkDecision p c.cfg.model_name logicalModel chainTail),
          st2)
      else
        let st3 := { st2 with invoked := st2.invoked ++ [c.cfg.model_name] }
        match c.outcome with
        | .ok r =>
          let cb2 := (getCB st3.breakers p).on_success
          let st4 := { st3 with breakers := setCB st3.breakers p cb2 }
          if hasCacheKey ∧ c.cacheWriteOk = false then
            let cb3 := (getCB st4.breakers p).on_failure now
            let st5 := { st4 with breakers := setCB st4.breakers p cb3,
                                  lastError := some .cacheWrite }
            routeLoop now streaming hasCacheKey logicalModel chainTail st5 rest
          else
            (.success (mkDecision p c.cfg.model_name logicalModel chainTail) r,
              st4)
        | .providerError e =>
          let cb2 := (getCB st3.breakers p).on_failure now
          let st4 := { st3 with breakers := setCB st3.breakers p cb2,
                                lastError := some (.provider e) }
          if e.fallback = false then (.allFailed st4.lastError, st4)
          else routeLoop now streaming hasCacheKey logicalModel chainTail st4 rest
        | .otherError =>
          let cb2 := (getCB st3.breakers p).on_failure now
          let st4 := { st3 with breakers := setCB st3.breakers p cb2,
                                lastError := some .generic }
          routeLoop now streaming hasCacheKey logicalModel chainTail st4 rest

/-! ## Sorting lemmas: the stable sorts are permutations, sorted, and
preserve the original order within each priority class. -/

theorem insertByDesc_perm (a : ModelConfig) (l : List ModelConfig) :
    (insertByDesc a l).Perm (a :: l) := by
  induction l with
  | nil => simp [insertByDesc]
  | cons b l ih =>
    by_cases h : a.priority < b.priority
    · simpa [insertByDesc, h] using
        ((ih.cons b).trans (List.Perm.swap a b l))
    · simp [insertByDesc, h]

theorem sortByPriorityDesc_perm (l : List ModelConfig) :
    (sortByPriorityDesc l).Perm l := by
  induction l with
  | nil => simp [sortByPriorityDesc]
  | cons a l ih =>
    exact (insertByDesc_perm a (sortByPriorityDesc l)).trans (ih.cons a)

theorem mem_insertByDesc {x a : ModelConfig} {l : List ModelConfig} :
    x ∈ insertByDesc a l ↔ x = a ∨ x ∈ l := by
  rw [(insertByDesc_perm a l).mem_iff]
  simp

theorem pairwise_insertByDesc {a : ModelConfig} {l : List ModelConfig}
    (h : l.Pairwise (fun x y => y.priority ≤ x.priority)) :
    (insertByDesc a l).Pairwise (fun x y => y.priority ≤ x.priority) := by
  induction l with
  | nil => simp [insertByDesc]
  | cons b l ih =>
    rcases List.pairwise_cons.mp h with ⟨hb, hl⟩
    by_cases hab : a.priority < b.priority
    · rw [insertByDesc, if_pos hab]
      refine List.pairwise_cons.mpr ⟨?_, ih hl⟩
      intro x hx
      rcases mem_insertByDesc.mp hx with rfl | hx
      · exact le_of_lt hab
      · exact hb x hx
    · rw [insertByDesc, if_neg hab]
      refine List.pairwise_cons.mpr ⟨?_, h⟩
      intro x hx
      rcases List.mem_cons.mp hx with rfl | hx
      · exact le_of_not_lt hab
      · exact le_trans (hb x hx) (le_of_not_lt hab)

theorem sortByPriorityDesc_sorted (l : List ModelConfig) :
    (sortByPriorityDesc l).Pairwise (fun x y => y.priority ≤ x.priority) := by
  induction l with
  | nil => simp [sortByPriorityDesc]
  | cons a l ih => exact pairwise_insertByDesc ih

theorem filter_insertByDesc_self (a : ModelConfig) (l : List ModelConfig) :
    (insertByDesc a l).filter (fun m => m.priority == a.priority) =
      a :: l.filter (fun m => m.priority == a.priority) := by
  induction l with
  | nil => simp [insertByDesc]
  | cons b l ih =>
    by_cases h : a.priority < b.priority
    · have hb : (b.priority == a.priority) = false := by
        simp [Int.ne_of_gt h]
      simp only [insertByDesc, if_pos h, List.filter_cons, hb]
      simpa [hb] using ih
    · simp [insertByDesc, if_neg h, List.filter_cons]

theorem filter_insertByDesc_ne (a : ModelConfig) (l : List ModelConfig)
    (k : Int) (hk : k ≠ a.priority) :
    (insertByDesc a l).filter (fun m => m.priority == k) =
      l.filter (fun m => m.priority == k) := by
  induction l with
  | nil => simp [insertByDesc, Ne.symm hk]
  | cons b l ih =>
    by_cases h : a.priority < b.priority
    · simp only [insertByDesc, if_pos h, List.filter_cons]
      rw [ih]
    · simp [insertByDesc, if_neg h, List.filter_cons, Ne.symm hk]

theorem sortByPriorityDesc_stable (l : List ModelConfig) (k : Int) :
    (sortByPriorityDesc l).filter (fun m => m.priority == k) =
      l.filter (fun m => m.priority == k) := by
  induction l with
  | nil => simp [sortByPriorityDesc]
  | cons a l ih =>
    by_cases hk : k = a.priority
    · subst hk
      rw [sortByPriorityDesc, filter_insertByDesc_self, ih]
      simp [List.filter_cons]
    · rw [sortByPriorityDesc, filter_insertByDesc_ne a _ k hk, ih]
      simp [List.filter_cons, Ne.symm hk]

theorem insertByAsc_perm (a : ModelConfig) (l : List ModelConfig) :
    (insertByAsc a l).Perm (a :: l) := by
  induction l with
  | nil => simp [insertByAsc]
  | cons b l ih =>
    by_cases h : b.priority < a.priority
    · simpa [insertByAsc, h] using
        ((ih.cons b).trans (List.Perm.swap a b l))
    · simp [insertByAsc, h]

theorem sortByPriorityAsc_perm (l : List ModelConfig) :
    (sortByPriorityAsc l).Perm l := by
  induction l with
  | nil => simp [sortByPriorityAsc]
  | cons a l ih =>
    exact (insertByAsc_perm a (sortByPriorityAsc l)).trans (ih.cons a)

theorem mem_insertByAsc {x a : ModelConfig} {l : List ModelConfig} :
    x ∈ insertByAsc a l ↔ x = a ∨ x ∈ l := by
  rw [(insertByAsc_perm a l).mem_iff]
  simp

theorem pairwise_insertByAsc {a : ModelConfig} {l : List ModelConfig}
    (h : l.Pairwise (fun x y => x.priority ≤ y.priority)) :
    (insertByAsc a l).Pairwise (fun x y => x.priority ≤ y.priority) := by
  induction l with
  | nil => simp [insertByAsc]
  | cons b l ih =>
    rcases List.pairwise_cons.mp h with ⟨hb, hl⟩
    by_cases hab : b.priority < a.priority
    · rw [insertByAsc, if_pos hab]
      refine List.pairwise_cons.mpr ⟨?_, ih hl⟩
      intro x hx
      rcases mem_insertByAsc.mp hx with rfl | hx
      · exact le_of_lt hab
      · exact hb x hx
    · rw [insertByAsc, if_neg hab]
      refine List.pairwise_cons.mpr ⟨?_, h⟩
      intro x hx
      rcases List.mem_cons.mp hx with rfl | hx
      · exact le_of_not_lt hab
      · exact le_trans (le_of_not_lt hab) (hb x hx)

theorem sortByPriorityAsc_sorted (l : List ModelConfig) :
    (sortByPriorityAsc l).Pairwise (fun x y => x.priority ≤ y.priority) := by
  induction l with
  | nil => simp [sortByPriorityAsc]
  | cons a l ih => exact pairwise_insertByAsc ih

theorem filter_insertByAsc_self (a : ModelConfig) (l : List ModelConfig) :
    (insertByAsc a l).filter (fun m => m.priority == a.priority) =
      a :: l.filter (fun m => m.priority == a.priority) := by
  induction l with
  | nil => simp [insertByAsc]
  | cons b l ih =>
    by_cases h : b.priority < a.priority
    · have hb : (b.priority == a.priority) = false := by
        simp [Int.ne_of_lt h]
      simp only [insertByAsc, if_pos h, List.filter_cons, hb]
      simpa [hb] using ih
    · simp [insertByAsc, if_neg h, List.filter_cons]

theorem filter_insertByAsc_ne (a : ModelConfig) (l : List ModelConfig)
    (k : Int) (hk : k ≠ a.priority) :
    (insertByAsc a l).filter (fun m => m.priority == k) =
      l.filter (fun m => m.priority == k) := by
  induction l with
  | nil => simp [insertByAsc, Ne.symm hk]
  | cons b l ih =>
    by_cases h : b.priority < a.priority
    · simp only [insertByAsc, if_pos h, List.filter_cons]
      rw [ih]
    · simp [insertByAsc, if_neg h, List.filter_cons, Ne.symm hk]

theorem sortByPriorityAsc_stable (l : List ModelConfig) (k : Int) :
    (sortByPriorityAsc l).filter (fun m => m.priority == k) =
      l.filter (fun m => m.priority == k) := by
  induction l with
  | nil => simp [sortByPriorityAsc]
  | cons a l ih =>
    by_cases hk : k = a.priority
    · subst hk
      rw [sortByPriorityAsc, filter_insertByAsc_self, ih]
      simp [List.filter_cons]
    · rw [sortByPriorityAsc, filter_insertByAsc_ne a _ k hk, ih]
      simp [List.filter_cons, Ne.symm hk]

/-! ## OpenAI adapter retry loop (`OpenAIAdapter.acompletion`,
lines 111–224 of `openai_adapter.py`)

The HTTP layer is an explicit oracle: `att i` is what the `i`-th POST to
`chat/completions` would yield — a response with a status code (the
successful JSON parse abstracted into `parsed`) or an
`httpx.RequestError`. -/

/-- One HTTP attempt's outcome. -/
inductive HttpAttempt where
  | response (status : Nat) (text : String) (parsed : LLMCompletionResult)
  | requestError (msg : String)
deriving Repr

/-- Status-code classification of `acompletion`: 5xx or 429 raise a
retryable non-fallback `ProviderError`; other 4xx raise a non-retryable
fallback `ProviderError`; anything else is a success. -/
def classifyStatus (model : String) (status : Nat) (text : String) :
    Option ProviderErrorData :=
  if status ≥ 500 ∨ status = 429 then
    some { provider := "openai", model := model, retryable := true,
           fallback := false,
           message := "OpenAI transient error: " ++ toString status ++ " " ++ text,
           status_code := some status }
  else if status ≥ 400 then
    some { provider := "openai", model := model, retryable := false,
           fallback := true,
           message := "OpenAI client error: " ++ toString status ++ " " ++ text,
           status_code := some status }
  else none

/-- The `ProviderError` raised for an `httpx.RequestError` on the last
attempt. -/
def networkError (model msg : String) : ProviderErrorData :=
  { provider := "openai", model := model, retryable := true,
    fallback := false, message := "OpenAI network error: " ++ msg,
    status_code := none }

/-- The `ProviderError` of the final `raise` after the loop (dead code in
the source: every attempt-2 branch already returns or raises). -/
def retriesExhausted (model : String) : ProviderErrorData :=
  { provider := "openai", model := model, retryable := true,
    fallback := true, message := "OpenAI retries exhausted",
    status_code := none }

/-- Result of `acompletion` together with the backoff sleeps performed
(in seconds, in order) and the number of attempts executed. -/
structure AcompOutcome where
  result : Except ProviderErrorData LLMCompletionResult
  sleeps : List Nat
  attempts : Nat
deriving Repr

/-- The error the `i`-th attempt raises, if any (classification of the
response status, or the network error that the last attempt would wrap). -/
def attemptError (model : String) : HttpAttempt → Option ProviderErrorData
  | .requestError msg => some (networkError model msg)
  | .response s t _ => classifyStatus model s t

/-- The parsed result when the `i`-th attempt succeeds. -/
def attemptOk (model : String) : HttpAttempt → Option LLMCompletionResult
  | .requestError _ => none
  | .response s t p =>
    match classifyStatus model s t with
    | some _ => none
    | none => some p

/-- The `for attempt in range(3)` body of `acompletion`: a raised
`ProviderError` — *whatever its `retryable` flag* — and a network error
alike are re-raised on attempt 2 and otherwise retried after
`asyncio.sleep(2 ** attempt)`; a success returns at once.  `fuel` is the
number of remaining iterations (3 at entry). -/
def acompGo (model : String) (att : Nat → HttpAttempt) :
    Nat → Nat → List Nat → AcompOutcome
  | 0, attempt, sleeps =>
    { result := .error (retriesExhausted model), sleeps := sleeps,
      attempts := attempt }
  | fuel + 1, attempt, sleeps =>
    match att attempt with
    | .requestError msg =>
      if attempt == 2 then
        { result := .error (networkError model msg), sleeps := sleeps,
          attempts := attempt + 1 }
      else acompGo model att fuel (attempt + 1) (sleeps ++ [2 ^ attempt])
    | .response status text parsed =>
      match classifyStatus model status text with
      | some e =>
        if attempt == 2 then
          { result := .error e, sleeps := sleeps, attempts := attempt + 1 }
        else acompGo model att fuel (attempt + 1) (sleeps ++ [2 ^ attempt])
      | none =>
        { result := .ok parsed, sleeps := sleeps, attempts := attempt + 1 }

/-- `OpenAIAdapter.acompletion`'s control flow for a fixed request model. -/
def acompletion (model : String) (att : Nat → HttpAttempt) : AcompOutcome :=
  acompGo model att 3 0 []

/-- The breaker of provider `p` after five consecutive recorded failures
(the default `failure_threshold`), the last at time `t`. -/
def cbAfterFiveFailures (p : String) (t : Int) : CircuitBreaker :=
  (((((freshBreaker p).on_failure t).on_failure t).on_failure
    t).on_failure t).on_failure t

/-! ## API-key auth gate (`app/api/middleware/auth.py`) -/

/-- `ApiKeyPermissions` dataclass. -/
structure ApiKeyPermissions where
  can_read : Bool
  can_write : Bool
  can_manage_keys : Bool
  is_admin : Bool
  rate_limit_per_minute : Int
deriving DecidableEq, Repr

/-- `CachedApiKey` dataclass (`expires_at_ts`, a float Unix time, as an
optional `Int` timestamp). -/
structure CachedApiKey where
  id : String
  org_id : String
  user_id : String
  preview : String
  key_hash : String
  is_active : Bool
  expires_at_ts : Option Int
  permissions : ApiKeyPermissions
deriving DecidableEq, Repr

/-- `AuthenticatedPrincipal` dataclass. -/
structure AuthenticatedPrincipal where
  api_key_id : String
  org_id : String
  user_id : String
  key_preview : String
  permissions : ApiKeyPermissions
deriving DecidableEq, Repr

/-- `ApiKeyAuthMiddleware._principal_from_cached`. -/
def principal_from_cached (c : CachedApiKey) : AuthenticatedPrincipal :=
  { api_key_id := c.id, org_id := c.org_id, user_id := c.user_id,
    key_preview := c.preview, permissions := c.permissions }

/-- `ApiKeyAuthMiddleware._get_cached_key`: `entry` is the KV value under
`lkg:auth:apikey:{hash}` already unpacked (`none` = KV miss).  The source
treats the entry as expired only when `expires_at_ts is not None and
expires_at_ts < time.time()` — a strict comparison.  Returns
`(cached, cache_hit)`. -/
def get_cached_key (entry : Option CachedApiKey) (now : Int) :
    Option CachedApiKey × Bool :=
  match entry with
  | none => (none, false)
  | some c =>
    match c.expires_at_ts with
    | some t => if t < now then (none, false) else (some c, true)
    | none => (some c, true)

/-! ## Rate limiting (`ApiKeyAuthMiddleware._check_rate_limit`) against a
real Redis backend -/

/-- The single rate-limit key `lkg:ratelimit:{lookup_hash}:{client_ip}`:
counter value (`none` = key absent) and remaining TTL (`none` = no expiry
set; a Redis `TTL` read then returns −1). -/
structure RateLimitKey where
  value : Option Int
  ttl : Option Int
deriving DecidableEq, Repr

/-- The `(allowed, remaining, reset_ts)` triple `_check_rate_limit`
returns. -/
structure RateLimitOutcome where
  allowed : Bool
  remaining : Int
  reset_ts : Int
deriving DecidableEq, Repr

/-- `_check_rate_limit`: atomic `INCR` (an absent key counts as 0); when
the post-increment value is exactly 1, set TTL = 60 s; the decision is
`current <= limit_per_minute`, `remaining = max(0, limit − current)` and
`reset_ts = now + (ttl if ttl > 0 else 60)`. -/
def check_rate_limit (limit : Int) (now : Int) (k : RateLimitKey) :
    RateLimitKey × RateLimitOutcome :=
  let current := k.value.getD 0 + 1
  let k1 : RateLimitKey := { k with value := some current }
  let k2 := if current = 1 then { k1 with ttl := some 60 } else k1
  let ttl := k2.ttl.getD (-1)
  (k2,
   { allowed := current ≤ limit,
     remaining := max 0 (limit - current),
     reset_ts := now + (if ttl > 0 then ttl else 60) })

/-- The key's state after `n` sequential checks within one window
(no expiry fires in between), starting from an absent key. -/
def rateLimitIter (limit now : Int) : Nat → RateLimitKey
  | 0 => { value := none, ttl := none }
  | n + 1 => (check_rate_limit limit now (rateLimitIter limit now n)).1

/-! ## In-process KV backend (`app/infrastructure/memory_client.py`) -/

/-- A stored value: Python `int`, `str` or `bytes` (modelled as a
string). -/
inductive RVal where
  | vint (n : Int)
  | vstr (s : String)
  | vbytes (s : String)
deriving DecidableEq, Repr

/-- `InMemoryRedis`: only the `_data` dict — no TTL bookkeeping exists at
all, so nothing in the state can ever expire. -/
structure InMemoryRedis where
  data : List (String × RVal)
deriving DecidableEq, Repr

/-- `self._data.get(key)`. -/
def imrFind (st : InMemoryRedis) (k : String) : Option RVal :=
  (st.data.find? (fun e => e.1 == k)).map (·.2)

/-- `self._data[key] = value`: replace or append. -/
def imrStore : List (String × RVal) → String → RVal → List (String × RVal)
  | [], k, v => [(k, v)]
  | e :: l, k, v => if e.1 == k then (k, v) :: l else e :: imrStore l k v

/-- `InMemoryRedis.set`: honours `nx` only; `ex` and `px` are accepted and
silently ignored — "Expiration not implemented for this simple
version". -/
def imr_set (st : InMemoryRedis) (k : String) (v : RVal)
    (ex px : Option Int) (nx : Bool) : InMemoryRedis × Bool :=
  if nx && (imrFind st k).isSome then (st, false)
  else ({ data := imrStore st.data k v }, true)

/-- The value coercion at the start of `InMemoryRedis.incr`: ints pass
through, bytes are parsed (0 on failure), anything else (including an
absent key) counts as 0. -/
def incrCoerce : Option RVal → Int
  | some (.vint n) => n
  | some (.vbytes s) => s.toInt?.getD 0
  | some (.vstr _) => 0
  | none => 0

/-- `InMemoryRedis.incr`: store and return the coerced value plus one. -/
def imr_incr (st : InMemoryRedis) (k : String) : InMemoryRedis × Int :=
  let new_val := incrCoerce (imrFind st k) + 1
  ({ data := imrStore st.data k (.vint new_val) }, new_val)

/-- `InMemoryRedis.expire`: "Simple mock: we don't actually expire yet" —
the state is untouched and `True` is returned. -/
def imr_expire (st : InMemoryRedis) (k : String) (seconds : Int) :
    InMemoryRedis × Bool := (st, true)

/-- `InMemoryRedis.ttl`: "return a reasonable TTL" — always 60. -/
def imr_ttl (st : InMemoryRedis) (k : String) : Int := 60

/-- `_check_rate_limit` running against the in-process backend
(`redis_url = "memory://"`). -/
def memory_check_rate_limit (limit now : Int) (st : InMemoryRedis)
    (key : String) : InMemoryRedis × RateLimitOutcome :=
  let r := imr_incr st key
  let st1 := r.1
  let current := r.2
  let st2 := if current = 1 then (imr_expire st1 key 60).1 else st1
  let ttl := imr_ttl st2 key
  (st2,
   { allowed := current ≤ limit,
     remaining := max 0 (limit - current),
     reset_ts := now + (if ttl > 0 then ttl else 60) })

/-- The in-process backend's state after `n` sequential checks for one
`(lookup_hash, client_ip)` key, starting from an empty store. -/
def memRateLimitIter (limit now : Int) (key : String) : Nat → InMemoryRedis
  | 0 => { data := [] }
  | n + 1 =>
    (memory_check_rate_limit limit now
      (memRateLimitIter limit now key n) key).1

/-! ## Concrete registry fixtures used by counterexamples and witnesses -/

/-- `openai:gpt-4o`, priority 10. -/
def mGpt4o : ModelConfig :=
  { id := "1", provider := "openai", model_name := "gpt-4o",
    display_name := "GPT-4o", context_window := 128000,
    max_output_tokens := 4096, priority := 10 }

/-- `openai:gpt-4o-mini`, priority 5. -/
def mGpt4oMini : ModelConfig :=
  { id := "2", provider := "openai", model_name := "gpt-4o-mini",
    display_name := "GPT-4o mini", context_window := 128000,
    max_output_tokens := 4096, priority := 5 }

/-- `anthropic:claude`, priority 7. -/
def mClaude : ModelConfig :=
  { id := "3", provider := "anthropic", model_name := "claude",
    display_name := "Claude", context_window := 200000,
    max_output_tokens := 8192, priority := 7 }

/-- Redis snapshot holding the two openai models. -/
def stRedisOpenai : RedisModelRegistry :=
  { active := [("openai:gpt-4o", mGpt4o), ("openai:gpt-4o-mini", mGpt4oMini)],
    aliases := [("gpt-4o", "openai:gpt-4o"), ("gpt-4o-mini", "openai:gpt-4o-mini")],
    capIndex := fun _ => [] }

/-- Redis snapshot holding models of two different providers. -/
def stRedisMixed : RedisModelRegistry :=
  { active := [("openai:gpt-4o", mGpt4o), ("anthropic:claude", mClaude)],
    aliases := [],
    capIndex := fun _ => [] }

/-- In-memory snapshot holding the two openai models (keyed by
`model_name`, as `InMemoryModelRegistry.refresh` does). -/
def stMemOpenai : InMemoryModelRegistry :=
  { models := [("gpt-4o", mGpt4o), ("gpt-4o-mini", mGpt4oMini)] }

/-- Permissions fixture (limit 60/min). -/
def permsFix : ApiKeyPermissions :=
  { can_read := true, can_write := true, can_manage_keys := false,
    is_admin := false, rate_limit_per_minute := 60 }

/-- A cached API key that expires exactly at time 100. -/
def cachedFix : CachedApiKey :=
  { id := "key-1", org_id := "org-1", user_id := "user-1",
    preview := "sk-...abc", key_hash := "deadbeef", is_active := true,
    expires_at_ts := some 100, permissions := permsFix }

/-- A successful completion result fixture. -/
def rFix : LLMCompletionResult :=
  { provider := "openai", model := "gpt-4o", content := "hello",
    usage := { prompt_tokens := 3, completion_tokens := 2 },
    finish_reason := some "stop" }

/-- Router state at the start of a request with no prior traffic. -/
def emptyRouteState : RouteState :=
  { breakers := [], tried := [], invoked := [], lastError := none }

/-- Router state in which openai's breaker has tripped (5 consecutive
failures, the last at time 0). -/
def c9State : RouteState :=
  { breakers := [("openai", cbAfterFiveFailures "openai" 0)],
    tried := [], invoked := [], lastError := none }

/-- An HTTP oracle that answers every attempt with a 400 client error. -/
def attClient400 : Nat → HttpAttempt :=
  fun _ => .response 400 "Bad Request" rFix

/-! ## Breaker-dict and breaker lemmas -/

theorem getCB_setCB (bs : List (String × CircuitBreaker)) (p : String)
    (cb : CircuitBreaker) : getCB (setCB bs p cb) p = cb := by
  induction bs with
  | nil => simp [setCB, getCB, List.find?]
  | cons e bs ih =>
    by_cases h : e.1 = p
    · simp [setCB, getCB, List.find?, h]
    · have hb : (e.1 == p) = false := by simpa using h
      rw [setCB, if_neg (by simp [hb])]
      unfold getCB
      rw [List.find?_cons_of_neg _ (by simp [hb])]
      exact ih

theorem setCB_setCB (bs : List (String × CircuitBreaker)) (p : String)
    (a b : CircuitBreaker) : setCB (setCB bs p a) p b = setCB bs p b := by
  induction bs with
  | nil => simp [setCB]
  | cons e bs ih =>
    by_cases h : e.1 = p
    · simp [setCB, h]
    · simp [setCB, h, ih]

/-- Every failure recording increments the failure count by one, whether or
not it opens the breaker. -/
theorem on_failure_count (cb : CircuitBreaker) (now : Int) :
    (cb.on_failure now).failure_count = cb.failure_count + 1 := by
  rw [CircuitBreaker.on_failure]
  dsimp only
  split <;> rfl

/-- A breaker in the open state whose reset timeout has not yet elapsed
denies the request and is returned unchanged. -/
theorem allow_request_open_denies (cb : CircuitBreaker) (t now : Int)
    (hstate : cb.state = .opened) (hts : cb.opened_at_ts = some t)
    (hlt : now - t < cb.reset_timeout_s) :
    cb.allow_request now = some (cb, false) := by
  rw [CircuitBreaker.allow_request, hstate, hts]
  simp [not_le.mpr hlt]

/-! ## C2 — failing response-cache write -/

/-- C2 counterexample: one candidate, fresh breaker, adapter succeeds, the
response-cache write raises.  The request FAILS
(`RuntimeError("All provider candidates failed")`, modelled as
`.allFailed`) and the provider's breaker IS marked failed
(`failure_count = 1`): the cache-write exception is caught by the loop's
generic `except Exception` handler, not swallowed. -/
theorem c2_counterexample :
    (routeLoop 1000 false true "gpt-4o" ["gpt-4o-mini"] emptyRouteState
        [{ cfg := mGpt4o, outcome := .ok rFix, cacheWriteOk := false }]).1 =
      .allFailed (some .cacheWrite) ∧
    (getCB (routeLoop 1000 false true "gpt-4o" ["gpt-4o-mini"] emptyRouteState
        [{ cfg := mGpt4o, outcome := .ok rFix,
           cacheWriteOk := false }]).2.breakers "openai").failure_count = 1 := by
  constructor <;> decide

/-- C2 amended: on a non-streaming cache-enabled request, when the adapter
call succeeds but the response-cache write raises, the exception is caught
by the generic handler: the provider's breaker (already reset by
`on_success`) is marked failed with `on_failure`, `last_error` becomes the
cache-write exception, the successful result is dropped, and the loop
continues with the remaining candidates. -/
theorem c2_cache_write_failure_amended (now : Int) (logicalModel : String)
    (chainTail : List String) (st : RouteState) (c : Candidate)
    (rest : List Candidate) (cb1 : CircuitBreaker) (r : LLMCompletionResult)
    (hok : c.outcome = .ok r) (hcw : c.cacheWriteOk = false)
    (hallow : (getCB st.breakers c.cfg.provider).allow_request now =
      some (cb1, true)) :
    routeLoop now false true logicalModel chainTail st (c :: rest) =
      routeLoop now false true logicalModel chainTail
        { st with
            breakers := setCB st.breakers c.cfg.provider
              (cb1.on_success.on_failure now),
            tried := st.tried ++ [c.cfg.model_name],
            invoked := st.invoked ++ [c.cfg.model_name],
            lastError := some .cacheWrite } rest ∧
    getCB (setCB st.breakers c.cfg.provider (cb1.on_success.on_failure now))
        c.cfg.provider = cb1.on_success.on_failure now ∧
    (cb1.on_success.on_failure now).failure_count =
      cb1.on_success.failure_count + 1 := by
  refine ⟨?_, getCB_setCB _ _ _, on_failure_count _ _⟩
  simp only [routeLoop, hallow, hok, hcw, getCB_setCB, setCB_setCB,
    Bool.not_true, and_true, if_true, if_false]
  simp

/-- C2 witness: the amended theorem at a concrete single-candidate run. -/
theorem c2_cache_write_failure_amended_witness :
    ({ cfg := mGpt4o, outcome := .ok rFix, cacheWriteOk := false } :
        Candidate).outcome = .ok rFix ∧
    ({ cfg := mGpt4o, outcome := .ok rFix, cacheWriteOk := false } :
        Candidate).cacheWriteOk = false ∧
    (getCB emptyRouteState.breakers "openai").allow_request 1000 =
      some (freshBreaker "openai", true) ∧
    routeLoop 1000 false true "gpt-4o" [] emptyRouteState
        [{ cfg := mGpt4o, outcome := .ok rFix, cacheWriteOk := false }] =
      routeLoop 1000 false true "gpt-4o" []
        { emptyRouteState with
            breakers := setCB emptyRouteState.breakers "openai"
              ((freshBreaker "openai").on_success.on_failure 1000),
            tried := emptyRouteState.tried ++ ["gpt-4o"],
            invoked := emptyRouteState.invoked ++ ["gpt-4o"],
            lastError := some .cacheWrite } [] :=
  ⟨rfl, rfl, by decide,
    (c2_cache_write_failure_amended 1000 "gpt-4o" [] emptyRouteState
      { cfg := mGpt4o, outcome := .ok rFix, cacheWriteOk := false } []
      (freshBreaker "openai") rFix rfl rfl (by decide)).1⟩

/-! ## C9 — open breaker denies the candidate without invoking the
adapter -/

/-- C9: after five consecutive recorded failures on a provider (the
default `failure_threshold`), the breaker is open with the last failure
time recorded; within the reset timeout (default 60 s) the router's
candidate loop skips any candidate of that provider: it recurses on the
remaining candidates with only `tried_models` extended — the breaker map
is unchanged apart from rewriting the same breaker, and `invoked` (the
models whose adapter `acompletion` ran) is untouched. -/
theorem c9_open_circuit_skips_candidate
    (t now : Int) (ht : now - t < 60)
    (streaming hasCacheKey : Bool) (logicalModel : String)
    (chainTail : List String) (st : RouteState) (c : Candidate)
    (rest : List Candidate)
    (hcb : getCB st.breakers c.cfg.provider =
      cbAfterFiveFailures c.cfg.provider t) :
    (cbAfterFiveFailures c.cfg.provider t).state = .opened ∧
    (cbAfterFiveFailures c.cfg.provider t).failure_count = 5 ∧
    (cbAfterFiveFailures c.cfg.provider t).opened_at_ts = some t ∧
    routeLoop now streaming hasCacheKey logicalModel chainTail st (c :: rest) =
      routeLoop now streaming hasCacheKey logicalModel chainTail
        { st with
            tried := st.tried ++ [c.cfg.model_name],
            breakers := setCB st.breakers c.cfg.provider
              (cbAfterFiveFailures c.cfg.provider t) } rest ∧
    ({ st with
        tried := st.tried ++ [c.cfg.model_name],
        breakers := setCB st.breakers c.cfg.provider
          (cbAfterFiveFailures c.cfg.provider t) } : RouteState).invoked =
      st.invoked := by
  refine ⟨rfl, rfl, rfl, ?_, rfl⟩
  have hallow : (cbAfterFiveFailures c.cfg.provider t).allow_request now =
      some (cbAfterFiveFailures c.cfg.provider t, false) :=
    allow_request_open_denies _ t now rfl rfl ht
  simp only [routeLoop, hcb, hallow, Bool.not_false, if_true]
  simp

/-- C9 witness: the theorem at a concrete state whose openai breaker
tripped at time 0, with a request at time 30. -/
theorem c9_open_circuit_skips_candidate_witness :
    ((30 : Int) - 0 < 60) ∧
    getCB c9State.breakers "openai" = cbAfterFiveFailures "openai" 0 ∧
    routeLoop 30 false true "gpt-4o" [] c9State
        [{ cfg := mGpt4o, outcome := .otherError, cacheWriteOk := true }] =
      routeLoop 30 false true "gpt-4o" []
        { c9State with
            tried := c9State.tried ++ ["gpt-4o"],
            breakers := setCB c9State.breakers "openai"
              (cbAfterFiveFailures "openai" 0) } [] :=
  ⟨by decide, by decide,
    (c9_open_circuit_skips_candidate 0 30 (by decide) false true "gpt-4o" []
      c9State { cfg := mGpt4o, outcome := .otherError, cacheWriteOk := true }
      [] (by decide)).2.2.2.1⟩

/-! ## C4 — adapter retry behaviour -/

/-- A raised error on attempt 0 or 1 (whatever kind) makes the loop sleep
`2^attempt` seconds and move to the next attempt. -/
theorem acompGo_step_err (model : String) (att : Nat → HttpAttempt)
    (fuel attempt : Nat) (sleeps : List Nat) (e : ProviderErrorData)
    (ha : attemptError model (att attempt) = some e) (hne : attempt ≠ 2) :
    acompGo model att (fuel + 1) attempt sleeps =
      acompGo model att fuel (attempt + 1) (sleeps ++ [2 ^ attempt]) := by
  rcases h : att attempt with ⟨s, t, p⟩ | msg
  · simp only [attemptError, h] at ha
    simp [acompGo, h, ha, hne]
  · simp [acompGo, h, hne]

/-- A raised error on attempt 2 is re-raised as is. -/
theorem acompGo_last_err (model : String) (att : Nat → HttpAttempt)
    (fuel : Nat) (sleeps : List Nat) (e : ProviderErrorData)
    (ha : attemptError model (att 2) = some e) :
    acompGo model att (fuel + 1) 2 sleeps =
      { result := .error e, sleeps := sleeps, attempts := 3 } := by
  rcases h : att 2 with ⟨s, t, p⟩ | msg
  · simp only [attemptError, h] at ha
    simp [acompGo, h, ha]
  · simp only [attemptError, h, Option.some.injEq] at ha
    simp [acompGo, h, ha]

/-- A successful attempt returns immediately with no further sleep. -/
theorem acompGo_step_ok (model : String) (att : Nat → HttpAttempt)
    (fuel attempt : Nat) (sleeps : List Nat) (r : LLMCompletionResult)
    (ha : attemptOk model (att attempt) = some r) :
    acompGo model att (fuel + 1) attempt sleeps =
      { result := .ok r, sleeps := sleeps, attempts := attempt + 1 } := by
  rcases h : att attempt with ⟨s, t, p⟩ | msg
  · simp only [attemptOk, h] at ha
    rcases hc : classifyStatus model s t with _ | e
    · simp only [hc, Option.some.injEq] at ha
      simp [acompGo, h, hc, ha]
    · simp [hc] at ha
  · simp [attemptOk, h] at ha

/-- C4 counterexample: with every attempt answering HTTP 400 (classified
`retryable=false`), `acompletion` does NOT raise immediately — it sleeps
1 s and 2 s and only raises the client error after 3 attempts. -/
theorem c4_counterexample :
    acompletion "gpt-4o" attClient400 =
      { result := .error
          { provider := "openai", model := "gpt-4o", retryable := false,
            fallback := true,
            message := "OpenAI client error: 400 Bad Request",
            status_code := some 400 },
        sleeps := [1, 2], attempts := 3 } ∧
    (acompletion "gpt-4o" attClient400).sleeps ≠ [] ∧
    (acompletion "gpt-4o" attClient400).attempts ≠ 1 := by
  refine ⟨rfl, by decide, by decide⟩

/-- C4 amended: every error raised inside the attempt loop — retryable
transient errors, network errors AND non-retryable 4xx client errors
alike — is retried against the same model with `sleep = 2^attempt`
(1 s then 2 s) for at most 3 attempts, the attempt-2 error being raised;
a successful attempt returns immediately.  (`exc.retryable` is never
consulted by the loop; immediate propagation of `retryable=false` errors
does not happen.) -/
theorem c4_retry_backoff_amended (model : String) (att : Nat → HttpAttempt) :
    (∀ e0 e1 e2,
        attemptError model (att 0) = some e0 →
        attemptError model (att 1) = some e1 →
        attemptError model (att 2) = some e2 →
        acompletion model att =
          { result := .error e2, sleeps := [1, 2], attempts := 3 }) ∧
    (∀ r, attemptOk model (att 0) = some r →
        acompletion model att =
          { result := .ok r, sleeps := [], attempts := 1 }) ∧
    (∀ e0 r,
        attemptError model (att 0) = some e0 →
        attemptOk model (att 1) = some r →
        acompletion model att =
          { result := .ok r, sleeps := [1], attempts := 2 }) ∧
    (∀ e0 e1 r,
        attemptError model (att 0) = some e0 →
        attemptError model (att 1) = some e1 →
        attemptOk model (att 2) = some r →
        acompletion model att =
          { result := .ok r, sleeps := [1, 2], attempts := 3 }) := by
  refine ⟨?_, ?_, ?_, ?_⟩
  · intro e0 e1 e2 h0 h1 h2
    rw [acompletion, acompGo_step_err model att 2 0 [] e0 h0 (by decide),
        acompGo_step_err model att 1 1 _ e1 h1 (by decide),
        acompGo_last_err model att 0 _ e2 h2]
    rfl
  · intro r h0
    rw [acompletion, acompGo_step_ok model att 2 0 [] r h0]
  · intro e0 r h0 h1
    rw [acompletion, acompGo_step_err model att 2 0 [] e0 h0 (by decide),
        acompGo_step_ok model att 1 1 _ r h1]
    rfl
  · intro e0 e1 r h0 h1 h2
    rw [acompletion, acompGo_step_err model att 2 0 [] e0 h0 (by decide),
        acompGo_step_err model att 1 1 _ e1 h1 (by decide),
        acompGo_step_ok model att 0 2 _ r h2]
    rfl

/-- C4 witness: the amended theorem at the all-400 oracle (all three
attempts raise, the attempt-2 error is re-raised after sleeps 1 and 2)
and at an immediately-successful oracle. -/
theorem c4_retry_backoff_amended_witness :
    (∃ e, attemptError "gpt-4o" (attClient400 0) = some e) ∧
    acompletion "gpt-4o" attClient400 =
      { result := .error
          { provider := "openai", model := "gpt-4o", retryable := false,
            fallback := true,
            message := "OpenAI client error: 400 Bad Request",
            status_code := some 400 },
        sleeps := [1, 2], attempts := 3 } :=
  ⟨⟨_, rfl⟩,
    (c4_retry_backoff_amended "gpt-4o" attClient400).1 _ _ _ rfl rfl rfl⟩

/-! ## C1 — empty `fallback_opts.models` list -/

/-- C1 counterexample: with the Redis registry holding `openai:gpt-4o`
(primary) and `openai:gpt-4o-mini`, `fallback.enabled = true` and an
explicit empty `fallback.models = []`, the candidate chain is
`[gpt-4o, gpt-4o-mini]`, not `[gpt-4o]`: an empty list is falsy in
`if fallback.models:` and applies no restriction, so fallback is NOT
disabled. -/
theorem c1_counterexample :
    buildModelsChain mGpt4o (stRedisOpenai.get_fallback_chain (fullName mGpt4o))
        { enabled := true, models := [] } = [mGpt4o, mGpt4oMini] ∧
    buildModelsChain mGpt4o (stRedisOpenai.get_fallback_chain (fullName mGpt4o))
        { enabled := true, models := [] } ≠ [mGpt4o] := by
  constructor <;> decide

/-- C1 amended: an explicit empty `fallback_opts.models` list applies no
filter at all — with fallback enabled the chain is the primary followed by
the registry's entire fallback chain. -/
theorem c1_empty_models_amended (cfg : ModelConfig)
    (fallbacks : List ModelConfig) (fb : RouterFallbackConfig)
    (hen : fb.enabled = true) (hmods : fb.models = []) :
    buildModelsChain cfg fallbacks fb = cfg :: fallbacks := by
  simp [buildModelsChain, hen, hmods]

/-- C1 witness: the amended theorem applied at a concrete primary, fallback
list and fallback config. -/
theorem c1_empty_models_amended_witness :
    ({ enabled := true, models := [] } : RouterFallbackConfig).enabled = true ∧
    ({ enabled := true, models := [] } : RouterFallbackConfig).models = [] ∧
    buildModelsChain mGpt4o [mGpt4oMini] { enabled := true, models := [] } =
      mGpt4o :: [mGpt4oMini] :=
  ⟨rfl, rfl, c1_empty_models_amended mGpt4o [mGpt4oMini] _ rfl rfl⟩

/-! ## C5 — fallback chain contents and order -/

/-- C5 counterexample: the Redis registry's `get_fallback_chain` applies no
provider filter.  With `openai:gpt-4o` failed and an `anthropic` model in
the snapshot, the chain is `[claude]` whose provider differs from the
failed model's provider, refuting "only active models whose provider
equals the failed model's provider ... for both registry backings". -/
theorem c5_counterexample :
    stRedisMixed.get_model "openai:gpt-4o" = some mGpt4o ∧
    stRedisMixed.get_fallback_chain "openai:gpt-4o" = [mClaude] ∧
    mClaude.provider ≠ mGpt4o.provider := by
  refine ⟨by decide, by decide, by decide⟩

/-- With no provider and no capability filter, the in-memory filter
pipeline is just the active entries of the snapshot. -/
theorem mem_filtered_none_true (st : InMemoryModelRegistry) :
    st.filtered none none true = st.values.filter (·.is_active) := rfl

/-- With no provider and no capability filter, the Redis filter pipeline
is exactly the snapshot hash's values. -/
theorem redis_filtered_none (st : RedisModelRegistry) :
    st.filtered none none = st.active.map (fun e => e.2) := by
  simp only [RedisModelRegistry.filtered, List.filter_true,
    List.filterMap_map]
  exact congrFun (List.filterMap_eq_map fun e => e.2) st.active

/-- C5 amended: the in-memory registry's fallback chain consists exactly
of the active snapshot models of the failed model's provider, excluding
the failed name (a permutation of that filtered snapshot), sorted by
priority descending.  The Redis registry's fallback chain consists of
**all** snapshot models except the entries whose canonical
`provider:model_name` equals the failed identifier — a model is in the
chain iff it is in the snapshot and is not the failed one, with no
provider restriction — sorted by priority **ascending**. -/
theorem c5_fallback_chain_amended
    (stM : InMemoryModelRegistry) (stR : RedisModelRegistry)
    (idM failedR : String) (base : ModelConfig)
    (hbase : stM.get_model idM = some base) :
    ((∀ m ∈ stM.get_fallback_chain idM,
        m.provider = base.provider ∧ m.model_name ≠ base.model_name ∧
          m.is_active = true) ∧
     (stM.get_fallback_chain idM).Perm
        ((stM.values.filter (·.is_active)).filter
          (fun m => m.provider == base.provider &&
            m.model_name != base.model_name)) ∧
     (stM.get_fallback_chain idM).Pairwise
        (fun x y => y.priority ≤ x.priority)) ∧
    ((∀ m ∈ stR.get_fallback_chain failedR, fullName m ≠ failedR) ∧
     (∀ m, m ∈ stR.get_fallback_chain failedR ↔
        m ∈ stR.active.map (fun e => e.2) ∧ fullName m ≠ failedR) ∧
     (stR.get_fallback_chain failedR).Perm
        ((stR.active.map (fun e => e.2)).filter
          (fun m => fullName m != failedR)) ∧
     (stR.get_fallback_chain failedR).Pairwise
        (fun x y => x.priority ≤ y.priority)) := by
  have hchainM : stM.get_fallback_chain idM =
      (stM.list_models none none true).filter
        (fun m => m.provider == base.provider &&
          m.model_name != base.model_name) := by
    unfold InMemoryModelRegistry.get_fallback_chain
    rw [hbase]
  have hsortM : (stM.list_models none none true).Perm
      (stM.values.filter (·.is_active)) := by
    rw [InMemoryModelRegistry.list_models, mem_filtered_none_true]
    exact sortByPriorityDesc_perm _
  have hsortR : (stR.list_models none none true).Perm
      (stR.active.map (fun e => e.2)) := by
    rw [RedisModelRegistry.list_models, redis_filtered_none]
    exact sortByPriorityAsc_perm _
  have hchainR : stR.get_fallback_chain failedR =
      (stR.list_models none none true).filter
        (fun m => fullName m != failedR) := rfl
  refine ⟨⟨?_, ?_, ?_⟩, ?_, ?_, ?_, ?_⟩
  · intro m hm
    rw [hchainM] at hm
    have hmem := List.mem_filter.mp hm
    have hpred := hmem.2
    simp only [Bool.and_eq_true, beq_iff_eq, bne_iff_ne, ne_eq] at hpred
    refine ⟨hpred.1, hpred.2, ?_⟩
    have hfil : m ∈ stM.values.filter (·.is_active) :=
      hsortM.mem_iff.mp hmem.1
    exact (List.mem_filter.mp hfil).2
  · rw [hchainM]
    exact hsortM.filter _
  · rw [hchainM]
    exact List.Pairwise.sublist (List.filter_sublist _)
      (sortByPriorityDesc_sorted (stM.filtered none none true))
  · intro m hm
    rw [hchainR] at hm
    have hpred := (List.mem_filter.mp hm).2
    simpa using hpred
  · intro m
    rw [hchainR, List.mem_filter, hsortR.mem_iff]
    simp [bne_iff_ne]
  · rw [hchainR]
    exact hsortR.filter _
  · rw [hchainR]
    exact List.Pairwise.sublist (List.filter_sublist _)
      (sortByPriorityAsc_sorted (stR.filtered none none))

/-- C5 witness: the amended theorem applied to concrete in-memory and
Redis snapshots, discharging the resolution hypothesis. -/
theorem c5_fallback_chain_amended_witness :
    stMemOpenai.get_model "gpt-4o" = some mGpt4o ∧
    (∀ m ∈ stMemOpenai.get_fallback_chain "gpt-4o",
        m.provider = mGpt4o.provider ∧ m.model_name ≠ mGpt4o.model_name ∧
          m.is_active = true) := by
  refine ⟨by decide, ?_⟩
  exact (c5_fallback_chain_amended stMemOpenai stRedisMixed "gpt-4o"
    "openai:gpt-4o" mGpt4o (by decide)).1.1

/-! ## C6 — `list_models` ordering -/

/-- C6 counterexample: the Redis registry sorts `list_models` by priority
**ascending** — with priorities 10 and 5 in the snapshot it returns
`[gpt-4o-mini, gpt-4o]`, which is not sorted by priority descending. -/
theorem c6_counterexample :
    stRedisOpenai.list_models none none true = [mGpt4oMini, mGpt4o] ∧
    ¬ (stRedisOpenai.list_models none none true).Pairwise
        (fun x y => y.priority ≤ x.priority) := by
  refine ⟨by decide, ?_⟩
  intro h
  have := List.pairwise_cons.mp h
  have h10 : (mGpt4o.priority ≤ mGpt4oMini.priority) := this.1 mGpt4o (by decide)
  exact absurd h10 (by decide)

/-- C6 amended: `list_models` returns a permutation of the filtered
snapshot; the in-memory registry sorts it by priority **descending** and
the Redis registry by priority **ascending**; in both, ties keep the
snapshot iteration order (stability within each priority class) — there is
no provider tie-break. -/
theorem c6_list_models_amended
    (stM : InMemoryModelRegistry) (stR : RedisModelRegistry)
    (provider : Option String) (capability : Option ModelCapability)
    (active_only : Bool) :
    ((stM.list_models provider capability active_only).Pairwise
        (fun x y => y.priority ≤ x.priority) ∧
     (stM.list_models provider capability active_only).Perm
        (stM.filtered provider capability active_only) ∧
     (∀ k : Int,
        (stM.list_models provider capability active_only).filter
            (fun m => m.priority == k) =
          (stM.filtered provider capability active_only).filter
            (fun m => m.priority == k))) ∧
    ((stR.list_models provider capability active_only).Pairwise
        (fun x y => x.priority ≤ y.priority) ∧
     (stR.list_models provider capability active_only).Perm
        (stR.filtered provider capability) ∧
     (∀ k : Int,
        (stR.list_models provider capability active_only).filter
            (fun m => m.priority == k) =
          (stR.filtered provider capability).filter
            (fun m => m.priority == k))) :=
  ⟨⟨sortByPriorityDesc_sorted _, sortByPriorityDesc_perm _,
      fun k => sortByPriorityDesc_stable _ k⟩,
   ⟨sortByPriorityAsc_sorted _, sortByPriorityAsc_perm _,
      fun k => sortByPriorityAsc_stable _ k⟩⟩

/-- C3 counterexample: a breaker that is already `closed` with a nonzero
failure count (3 prior failures, below the threshold) keeps that count after
`on_success`, so the claim "`on_success` leaves `failure_count = 0` in every
state" is false. -/
theorem c3_counterexample :
    ¬ ({ freshBreaker "openai" with failure_count := 3 }.on_success.failure_count = 0) := by
  decide

/-- C3 amended: `on_success` always leaves the breaker `closed`, but it
resets `failure_count` (and clears `opened_at_ts`) only when the prior state
was not `closed`; when already closed the breaker, including any accumulated
failure count, is unchanged. -/
theorem c3_on_success_amended (cb : CircuitBreaker) :
    cb.on_success.state = .closed ∧
    cb.on_success.failure_count =
      (if cb.state = .closed then cb.failure_count else 0) ∧
    cb.on_success.opened_at_ts =
      (if cb.state = .closed then cb.opened_at_ts else none) ∧
    (cb.state ≠ .closed → cb.on_success.failure_count = 0) := by
  by_cases h : cb.state = .closed <;>
    simp [CircuitBreaker.on_success, h]

/-- C3 witness: the amended theorem evaluated on a concrete open breaker
with 5 recorded failures, discharging the non-closed hypothesis. -/
theorem c3_on_success_amended_witness :
    ({ freshBreaker "openai" with
        state := .opened, failure_count := 5,
        opened_at_ts := some 100 } : CircuitBreaker).state ≠ .closed ∧
    ({ freshBreaker "openai" with
        state := .opened, failure_count := 5,
        opened_at_ts := some 100 } : CircuitBreaker).on_success.failure_count = 0 := by
  refine ⟨by decide, ?_⟩
  exact (c3_on_success_amended _).2.2.2 (by decide)

/-! ## C7 — rate-limit decision on the post-increment value -/

/-- After `n` sequential checks within one window, the counter holds `n`
(an absent key reads as 0). -/
theorem rateLimitIter_value (limit now : Int) (n : Nat) :
    (rateLimitIter limit now n).value.getD 0 = (n : Int) := by
  induction n with
  | zero => rfl
  | succ n ih =>
    simp only [rateLimitIter, check_rate_limit, ih]
    split <;> rfl

/-- C7: for the `(n+1)`-th request of a window, the post-increment value is
`n+1`; the request is allowed exactly when `n+1 ≤ limit` (so `N = limit`
is allowed and `N = limit + 1` denied), `remaining = max(0, limit−(n+1))`
lies in `[0, limit]`, and it does not increase from one request to the
next. -/
theorem c7_rate_limit_post_increment (limit now : Int) (n : Nat)
    (hL : 0 ≤ limit) :
    ((check_rate_limit limit now (rateLimitIter limit now n)).2.allowed = true ↔
      (n : Int) + 1 ≤ limit) ∧
    (check_rate_limit limit now (rateLimitIter limit now n)).2.remaining =
      max 0 (limit - ((n : Int) + 1)) ∧
    0 ≤ (check_rate_limit limit now (rateLimitIter limit now n)).2.remaining ∧
    (check_rate_limit limit now (rateLimitIter limit now n)).2.remaining ≤ limit ∧
    (check_rate_limit limit now (rateLimitIter limit now (n + 1))).2.remaining ≤
      (check_rate_limit limit now (rateLimitIter limit now n)).2.remaining := by
  have hv := rateLimitIter_value limit now n
  have hv1 := rateLimitIter_value limit now (n + 1)
  have hrem : ∀ m : Nat,
      (check_rate_limit limit now (rateLimitIter limit now m)).2.remaining =
        max 0 (limit - ((m : Int) + 1)) := by
    intro m
    simp [check_rate_limit, rateLimitIter_value limit now m]
  refine ⟨?_, hrem n, ?_, ?_, ?_⟩
  · simp [check_rate_limit, hv]
  · rw [hrem n]; exact le_max_left _ _
  · rw [hrem n]
    refine max_le hL ?_
    have : (0 : Int) ≤ (n : Int) + 1 := by positivity
    linarith
  · rw [hrem n, hrem (n + 1)]
    refine max_le_max le_rfl ?_
    push_cast
    linarith

/-- C7 witness: limit 60, the 60th request (post-increment value 60) is
allowed with `remaining = 0`. -/
theorem c7_rate_limit_post_increment_witness :
    (0 : Int) ≤ 60 ∧
    ((check_rate_limit 60 1000 (rateLimitIter 60 1000 59)).2.allowed = true ↔
      (59 : Nat) + 1 ≤ (60 : Int)) := by
  refine ⟨by decide, ?_⟩
  have h := (c7_rate_limit_post_increment 60 1000 59 (by decide)).1
  simpa using h

/-! ## C8 — expiry check of the cached API key -/

/-- C8 counterexample: at the exact boundary `expires_at_ts = now` the
source's strict `<` does NOT treat the entry as expired — the lookup is a
cache hit and the cached entry is returned (and would be used to build the
principal), refuting "expires_at_ts ≤ now ⇒ treated as a miss". -/
theorem c8_counterexample :
    cachedFix.expires_at_ts = some 100 ∧
    get_cached_key (some cachedFix) 100 = (some cachedFix, true) ∧
    principal_from_cached cachedFix =
      { api_key_id := "key-1", org_id := "org-1", user_id := "user-1",
        key_preview := "sk-...abc", permissions := permsFix } := by
  refine ⟨rfl, by decide, rfl⟩

/-- C8 amended: a cached entry is treated as a miss exactly when
`expires_at_ts` is set and **strictly** below the current time; at the
boundary `expires_at_ts = now` (and beyond, while `now ≤ expires_at_ts`)
the entry is still used, regardless of the KV TTL. -/
theorem c8_cache_expiry_amended (c : CachedApiKey) (now : Int) :
    ((get_cached_key (some c) now).1 = none ↔
      ∃ t, c.expires_at_ts = some t ∧ t < now) ∧
    ((get_cached_key (some c) now).2 = true ↔
      ¬ ∃ t, c.expires_at_ts = some t ∧ t < now) ∧
    (∀ t, c.expires_at_ts = some t → now ≤ t →
      get_cached_key (some c) now = (some c, true)) := by
  rcases h : c.expires_at_ts with _ | t
  · simp [get_cached_key, h]
  · by_cases hlt : t < now <;> simp [get_cached_key, h, hlt, not_lt]

/-- C8 witness: the amended theorem's boundary clause at
`expires_at_ts = now = 100`. -/
theorem c8_cache_expiry_amended_witness :
    cachedFix.expires_at_ts = some 100 ∧ (100 : Int) ≤ 100 ∧
    get_cached_key (some cachedFix) 100 = (some cachedFix, true) :=
  ⟨rfl, by decide,
    (c8_cache_expiry_amended cachedFix 100).2.2 100 rfl (by decide)⟩

/-! ## C10 — the in-process KV backend never expires keys -/

theorem imrFind_imrStore (l : List (String × RVal)) (k : String)
    (v : RVal) : imrFind { data := imrStore l k v } k = some v := by
  induction l with
  | nil => simp [imrFind, imrStore, List.find?]
  | cons e l ih =>
    by_cases h : e.1 = k
    · simp [imrFind, imrStore, List.find?, h]
    · have hb : (e.1 == k) = false := by simpa using h
      rw [imrStore, if_neg (by simp [hb])]
      unfold imrFind
      rw [List.find?_cons_of_neg _ (by simp [hb])]
      exact ih

/-- After `n` checks from an empty store, the key's coerced counter value
is `n`. -/
theorem memRateLimitIter_value (limit now : Int) (key : String) (n : Nat) :
    incrCoerce (imrFind (memRateLimitIter limit now key n) key) = (n : Int) := by
  induction n with
  | zero => rfl
  | succ n ih =>
    simp only [memRateLimitIter, memory_check_rate_limit, imr_incr,
      imr_expire, ite_self]
    rw [imrFind_imrStore, incrCoerce, ih]
    push_cast
    ring

/-- C10: with the `memory://` backend, `expire` is a state-preserving
no-op, `ttl` always answers 60, and `set` is oblivious to its `ex`/`px`
arguments, so no key ever expires.  Consequently the rate-limit counter of
a `(lookup_hash, client_ip)` key only ever increases (each check stores
the previous integer value plus one), the allow/deny decision is
independent of the current time, the counter after `n+1` checks is `n+1`,
and every check after the `limit`-th is denied — forever, not merely
within a 60-second window. -/
theorem c10_memory_backend_never_expires (limit now now2 : Int)
    (st : InMemoryRedis) (key : String) (s : Int) (v : RVal)
    (ex px ex2 px2 : Option Int) (nx : Bool) (n m : Nat) :
    imr_expire st key s = (st, true) ∧
    imr_ttl st key = 60 ∧
    imr_set st key v ex px nx = imr_set st key v ex2 px2 nx ∧
    (∀ c : Int, imrFind st key = some (.vint c) →
      imrFind (memory_check_rate_limit limit now st key).1 key =
        some (.vint (c + 1))) ∧
    (memory_check_rate_limit limit now st key).2.allowed =
      (memory_check_rate_limit limit now2 st key).2.allowed ∧
    imrFind (memRateLimitIter limit now key (n + 1)) key =
      some (.vint ((n : Int) + 1)) ∧
    ((memory_check_rate_limit limit now
        (memRateLimitIter limit now key m) key).2.allowed = true ↔
      (m : Int) + 1 ≤ limit) ∧
    (limit < (m : Int) + 1 →
      (memory_check_rate_limit limit now
        (memRateLimitIter limit now key m) key).2.allowed = false) := by
  have hvm := memRateLimitIter_value limit now key m
  refine ⟨rfl, rfl, rfl, ?_, ?_, ?_, ?_, ?_⟩
  · intro c hc
    simp only [memory_check_rate_limit, imr_incr, imr_expire, ite_self]
    rw [imrFind_imrStore, hc, incrCoerce]
  · simp [memory_check_rate_limit]
  · have := memRateLimitIter_value limit now key (n + 1)
    rcases hfind : imrFind (memRateLimitIter limit now key (n + 1)) key
      with _ | w
    · rw [hfind] at this
      simp only [incrCoerce] at this
      exfalso
      omega
    · rw [hfind] at this
      rcases w with wn | ws | wb
      · simp only [incrCoerce] at this
        rw [this]
        push_cast
        rfl
      · exfalso
        -- a string value cannot arise: every check stores `.vint _`
        have hstep : ∃ c : Int,
            imrFind (memRateLimitIter limit now key (n + 1)) key =
              some (.vint c) := by
          refine ⟨incrCoerce (imrFind (memRateLimitIter limit now key n) key) + 1, ?_⟩
          simp only [memRateLimitIter, memory_check_rate_limit, imr_incr,
            imr_expire, ite_self]
          exact imrFind_imrStore _ _ _
        rcases hstep with ⟨c, hc⟩
        rw [hfind] at hc
        exact absurd hc (by simp)
      · exfalso
        have hstep : ∃ c : Int,
            imrFind (memRateLimitIter limit now key (n + 1)) key =
              some (.vint c) := by
          refine ⟨incrCoerce (imrFind (memRateLimitIter limit now key n) key) + 1, ?_⟩
          simp only [memRateLimitIter, memory_check_rate_limit, imr_incr,
            imr_expire, ite_self]
          exact imrFind_imrStore _ _ _
        rcases hstep with ⟨c, hc⟩
        rw [hfind] at hc
        exact absurd hc (by simp)
  · simp [memory_check_rate_limit, imr_incr, hvm]
  · intro hlt
    simp [memory_check_rate_limit, imr_incr, hvm]
    linarith

/-- C10 witness: limit 2 — the third request from the same key is denied
(the counter can never reset). -/
theorem c10_memory_backend_never_expires_witness :
    ((2 : Int) < (2 : Nat) + 1) ∧
    (memory_check_rate_limit 2 1000
      (memRateLimitIter 2 1000 "lkg:ratelimit:h:ip" 2)
      "lkg:ratelimit:h:ip").2.allowed = false :=
  ⟨by norm_num,
    (c10_memory_backend_never_expires 2 1000 1000 { data := [] }
      "lkg:ratelimit:h:ip" 60 (.vint 0) none none none none false 0 2).2.2.2.2.2.2.2
      (by norm_num)⟩

end LLMGateway
